import Mathlib

/-!
Verification of the backup-helper repository against its specification.

The Go sources (`main.go`, `writer.go`) are shallowly embedded below:
pure data flow is translated into Lean functions; the effectful parts
(filesystem, subprocesses, SMTP) are modelled by explicit environment
records that carry the outcome of each external effect, and the functions
thread those outcomes exactly the way the Go control flow does.  Bytes are
modelled as `Nat` (the line-ending marker `'\n'` is byte 10); Go strings
that are only ever compared or stored are kept as `String`, while byte
streams handled by the writers are `List Nat`.
-/

namespace BackupHelper

/-- Byte list of a string literal (Go `[]byte(s)` for ASCII data). -/
def strBytes (s : String) : List Nat := s.data.map Char.toNat

/-! ### Go errors

`GoErr` models a non-nil Go `error` value; `Option GoErr` models a Go
`error` variable (`none` = nil).  `wrap` is `fmt.Errorf("msg: %w", e)` with
a non-nil operand; `wrapNil` is `fmt.Errorf("msg: %w", nil)` — per the
`fmt` documentation `Errorf` always returns a non-nil error, even when the
`%w` operand is nil (the verb renders as `%!w(<nil>)`).  `join1`/`join2`
are `errors.Join` applied to one resp. two non-nil arguments (`errors.Join`
returns nil only when every argument is nil). -/
inductive GoErr where
  | msg : String → GoErr
  | wrap : String → GoErr → GoErr
  | wrapNil : String → GoErr
  | join1 : GoErr → GoErr
  | join2 : GoErr → GoErr → GoErr
deriving DecidableEq, Repr

/-- `err.Error()`: the message text of an error value. -/
def errString : GoErr → String
  | .msg s => s
  | .wrap s e => s ++ ": " ++ errString e
  | .wrapNil s => s ++ ": %!w(<nil>)"
  | .join1 e => errString e
  | .join2 a b => errString a ++ "\n" ++ errString b

/-- `fmt.Errorf("<s>: %w", e)` for a Go error variable `e` that may be nil:
the result is non-nil in every case. -/
def errorfW (s : String) : Option GoErr → GoErr
  | some e => .wrap s e
  | none => .wrapNil s

/-- `errors.Join(a, b)`: nil iff both arguments are nil. -/
def goJoin2 : Option GoErr → Option GoErr → Option GoErr
  | none, none => none
  | some a, none => some (.join1 a)
  | none, some b => some (.join1 b)
  | some a, some b => some (.join2 a b)

/-! ### writer.go — `lineBuffer`

Ensures that the `Out` writer gets a line at a time.  `Out` (an
`io.Writer`) is modelled by returning the list of byte slices written to
it; the embedding models the sink as never failing, which matches every
use in the program (the log writer), so the early-error return inside the
source loop is never taken. -/
structure lineBuffer where
  Prefix : List Nat
  curr : List Nat
deriving DecidableEq, Repr

/-- One iteration of the loop body of `lineBuffer.Write`: append the byte
to `curr`; on a line ending emit the buffered line (prefixed when a prefix
is configured, the marker byte included) and reset. -/
def lineBuffer.writeByte (lb : lineBuffer) (b : Nat) : lineBuffer × List (List Nat) :=
  let curr := lb.curr ++ [b]
  if b = 10 then
    let line := if 0 < lb.Prefix.length then lb.Prefix ++ curr else curr
    ({ lb with curr := [] }, [line])
  else
    ({ lb with curr := curr }, [])

/-- `lineBuffer.Write(p)`: the loop over the bytes of `p`, collecting the
writes made to `Out` in order. -/
def lineBuffer.writeBytes : lineBuffer → List Nat → lineBuffer × List (List Nat)
  | lb, [] => (lb, [])
  | lb, b :: bs =>
    let r1 := lb.writeByte b
    let r2 := r1.1.writeBytes bs
    (r2.1, r1.2 ++ r2.2)

/-- A sequence of `Write` calls, one per chunk. -/
def lineBuffer.writeChunks : lineBuffer → List (List Nat) → lineBuffer × List (List Nat)
  | lb, [] => (lb, [])
  | lb, p :: ps =>
    let r1 := lb.writeBytes p
    let r2 := r1.1.writeChunks ps
    (r2.1, r1.2 ++ r2.2)

/-- `lineBuffer.Flush`: writes any remainder out as a line (verbatim — the
source neither prepends the prefix nor appends a marker here). -/
def lineBuffer.flush (lb : lineBuffer) : lineBuffer × List (List Nat) :=
  if 0 < lb.curr.length then ({ lb with curr := [] }, [lb.curr]) else (lb, [])

/-- Feed a chunk sequence to a fresh `lineBuffer` with the given prefix:
the final state and the `Write`-phase emissions. -/
def lineBufferFeed (pre : List Nat) (chunks : List (List Nat)) :
    lineBuffer × List (List Nat) :=
  lineBuffer.writeChunks { Prefix := pre, curr := [] } chunks

/-- A full `lineBuffer` run: feed every chunk, then `Flush`; all writes
made to the live sink, in order. -/
def lineBufferRun (pre : List Nat) (chunks : List (List Nat)) : List (List Nat) :=
  let r := lineBufferFeed pre chunks
  r.2 ++ r.1.flush.2

/-! ### writer.go — `linesWriter` -/

structure linesWriter where
  lines : List (List Nat)
  curr : List Nat
deriving DecidableEq, Repr

/-- One iteration of the loop body of `linesWriter.Write`: a line ending
completes the buffered line, which is recorded unless it is empty; any
other byte is buffered. -/
def linesWriter.writeByte (lw : linesWriter) (b : Nat) : linesWriter :=
  if b = 10 then
    let line := lw.curr
    if line.length = 0 then { lw with curr := [] }
    else { lines := lw.lines ++ [line], curr := [] }
  else
    { lw with curr := lw.curr ++ [b] }

/-- `linesWriter.Write(p)`: the loop over the bytes of `p`. -/
def linesWriter.writeBytes : linesWriter → List Nat → linesWriter
  | lw, [] => lw
  | lw, b :: bs => (lw.writeByte b).writeBytes bs

/-- A sequence of `Write` calls, one per chunk. -/
def linesWriter.writeChunks : linesWriter → List (List Nat) → linesWriter
  | lw, [] => lw
  | lw, p :: ps => (lw.writeBytes p).writeChunks ps

/-- `linesWriter.Lines()`: appends any remaining buffered bytes as a final
line and returns the collected lines. -/
def linesWriter.Lines (lw : linesWriter) : List (List Nat) :=
  if 0 < lw.curr.length then lw.lines ++ [lw.curr] else lw.lines

/-- A full `linesWriter` run: feed every chunk, then read `Lines()`. -/
def linesWriterRun (chunks : List (List Nat)) : List (List Nat) :=
  (linesWriter.writeChunks { lines := [], curr := [] } chunks).Lines

/-! ### Reference decomposition of a transcript into lines

`splitNL t = (completed, remainder)`: the completed lines of `t` (marker
stripped, empty lines kept) and the trailing unterminated fragment. -/

/-- Glue `c` onto the front of the first completed line, or onto the
remainder when no line was completed. -/
def prependFirst (c : List Nat) : List (List Nat) × List Nat → List (List Nat) × List Nat
  | ([], r) => ([], c ++ r)
  | (l :: ls, r) => ((c ++ l) :: ls, r)

/-- Split a transcript on the byte 10: completed lines (marker stripped)
and the unterminated remainder. -/
def splitNL : List Nat → List (List Nat) × List Nat
  | [] => ([], [])
  | b :: rest =>
    if b = 10 then ([] :: (splitNL rest).1, (splitNL rest).2)
    else prependFirst [b] (splitNL rest)

/-- The remainder as a zero-or-one element list of emitted lines. -/
def optRem (r : List Nat) : List (List Nat) :=
  if 0 < r.length then [r] else []

/-- Drop the empty lines (the capture-side filtering of `linesWriter`). -/
def keepNonempty : List (List Nat) → List (List Nat)
  | [] => []
  | l :: ls => if l.length = 0 then keepNonempty ls else l :: keepNonempty ls

/-- Modelled from the spec's words for the line-reassembly claim: the
transcript split on the line-ending marker with the marker stripped, every
line kept, any final unterminated fragment emitted once as the last
line. -/
def claimEmit (t : List Nat) : List (List Nat) :=
  (splitNL t).1 ++ optRem (splitNL t).2

/-- The line content of a write made to the live sink: a terminated write
loses its trailing marker and its prefix; an unterminated write (the flush
remainder, which the source emits bare) is taken verbatim. -/
def stripLive (pre : List Nat) (w : List Nat) : List Nat :=
  if w.getLast? = some 10 then (w.dropLast).drop pre.length else w

/-! ### main.go — `execCommand`

The subprocess is external: the environment records the chunk sequence it
wrote to the merged stdout/stderr stream and the result of `cmd.Run()`.
The merged stream goes through `io.MultiWriter(&logw, &linew)`; the
function returns the capture of `linew` (the `logw` side is the live-log
side effect modelled by `lineBufferRun`).  After `cmd.Run()` the source
flushes the log writer, reads `linew.Lines()`, and appends the synthetic
marker line unconditionally. -/

structure CmdEnv where
  output : List (List Nat)
  runErr : Option GoErr
deriving DecidableEq, Repr

/-- The synthetic end-of-output marker line. -/
def endOfLogs : List Nat := strBytes "<end of logs>"

def execCommand (logDesc name : String) (args : List String) (env : CmdEnv) :
    List (List Nat) × Option GoErr :=
  -- logDesc and args only shape the live-log prefix and the subprocess
  -- argv; neither affects the returned capture.
  let _ := logDesc
  let _ := args
  let lines := linesWriterRun env.output ++ [endOfLogs]
  match env.runErr with
  | some e => (lines, some (.wrap ("command " ++ name ++ " failed") e))
  | none => (lines, none)

/-! ### main.go — report data model -/

structure Section where
  Title : String
  Detail : String
  LogLines : List (List Nat)
deriving DecidableEq, Repr

structure report where
  Title : String
  Detail : String
  Sections : List Section
deriving DecidableEq, Repr

def addExecSection (r : report) (desc : String) (outLines : List (List Nat))
    (name : String) (args : List String) : report :=
  { r with Sections := r.Sections ++
      [{ Title := desc,
         Detail := "[" ++ name ++ " " ++ String.intercalate " " args ++ "]",
         LogLines := outLines }] }

/-! ### main.go — `run`

The environment records the outcome of every external effect `run`
performs, in program order: creating the log file, the CLI arguments,
loading `config.json`, the two folder checks, the two concurrent `cshatag`
invocations (each an `execCommand` result), the `rsync` invocation, and
sending the report mail.  `now` abstracts the start timestamp. -/

structure RunEnv where
  now : String
  logCreateErr : Option GoErr
  args : List String
  configErr : Option GoErr
  checkIn : Option GoErr
  checkOut : Option GoErr
  cshaIn : List (List Nat) × Option GoErr
  cshaOut : List (List Nat) × Option GoErr
  rsync : List (List Nat) × Option GoErr
  mailErr : Option GoErr
deriving DecidableEq, Repr

structure RunResult where
  report : report
  /-- The named return `err` at the moment the deferred mail func runs. -/
  workflowErr : Option GoErr
  /-- The named return after the deferred func: what `main` observes. -/
  retErr : Option GoErr
  /-- Whether the `rsync` invocation was reached. -/
  syncInvoked : Bool
  /-- Whether the deferred finalization ran (it sends the report). -/
  mailSent : Bool
deriving DecidableEq, Repr

/-- The deferred func registered after the report is created: append the
outcome section, set the title from the workflow error, send the mail, and
join any mail error into the returned error. -/
def finalizeRun (rep : report) (e : Option GoErr) (mailErr : Option GoErr)
    (sync : Bool) : RunResult :=
  match e with
  | some er =>
    ⟨{ rep with
        Title := "[ERROR] Backup Helper report"
        Sections := rep.Sections ++
          [⟨"Error", "Error contents: " ++ errString er, []⟩] },
      e, goJoin2 e mailErr, sync, true⟩
  | none =>
    ⟨{ rep with
        Title := "[SUCCESS] Backup Helper report"
        Sections := rep.Sections ++
          [⟨"Success", "No error reported - looking good!", []⟩] },
      e, goJoin2 e mailErr, sync, true⟩

def run (env : RunEnv) : RunResult :=
  match env.logCreateErr with
  | some e =>
    -- The deferred mail func is registered only after the log file exists:
    -- this path returns before any report is assembled or sent.
    let er := some (.wrap "could not create log file" e)
    ⟨⟨"", "", []⟩, er, er, false, false⟩
  | none =>
    let rep0 : report :=
      ⟨"", "Started at " ++ env.now ++
        ". This report includes info on the cshatag output, and the rsync output.", []⟩
    -- `len(args) != 2` is the source check; the wildcard arm below is that
    -- failure, carrying the received count in the message.
    match env.args with
    | [inFolder, outFolder] =>
      match env.configErr with
      | some e => finalizeRun rep0 (some e) env.mailErr false
      | none =>
      match env.checkIn with
      | some e => finalizeRun rep0 (some (.wrap "in folder" e)) env.mailErr false
      | none =>
      match env.checkOut with
      | some e => finalizeRun rep0 (some (.wrap "out folder" e)) env.mailErr false
      | none =>
      let rep1 : report :=
        { rep0 with Sections := rep0.Sections ++
            [⟨"Folders checked",
              "This test tries to write, read, and delete a temporary file in both the input and output folders.",
              [strBytes (inFolder ++ ": OK"), strBytes (outFolder ++ ": OK")]⟩] }
      -- Both cshatag invocations complete (wg.Wait()), then their sections
      -- are appended in fixed order and their errors joined.  The source
      -- wraps each error with fmt.Errorf("... failed: %w", e) WITHOUT
      -- first testing it for nil, so each join operand is non-nil.
      let rep2 := addExecSection rep1 "cshatag on input folder" env.cshaIn.1
        "cshatag" ["-q", "-recursive", inFolder]
      let rep3 := addExecSection rep2 "cshatag on output folder" env.cshaOut.1
        "cshatag" ["-q", "-recursive", outFolder]
      let e1 := goJoin2 none (some (errorfW "cshatag on input folder failed" env.cshaIn.2))
      let e2 := goJoin2 e1 (some (errorfW "cshatag on output folder failed" env.cshaOut.2))
      match e2 with
      | some e => finalizeRun rep3 (some e) env.mailErr false
      | none =>
        -- rsync: the source assigns its error to `err` but then executes
        -- `return nil`, so the workflow error on this path is nil.
        let rep4 := addExecSection rep3 "rsync from input to output folder" env.rsync.1
          "rsync" ["-avu", "--delete", inFolder ++ "/", outFolder]
        finalizeRun rep4 none env.mailErr true
    | _ =>
      finalizeRun rep0
        (some (.msg ("expect exactly two args: first for input folder, second for output folder - but received "
          ++ toString env.args.length)))
        env.mailErr false

/-! ### main.go — `checkFolder`

The filesystem is external: the environment records the outcome of the
probe-file write, the read-back (error or content), and the delete.
`testVal` stands for the `rand.Int()` value (non-negative). -/

deriving instance DecidableEq for Except

structure FolderEnv where
  writeErr : Option GoErr
  readResult : Except GoErr (List Char)
  removeErr : Option GoErr
deriving DecidableEq, Repr

/-- Decimal digit value of a character, as `strconv` sees it. -/
def digitVal (c : Char) : Option Nat :=
  if '0' ≤ c ∧ c ≤ '9' then some (c.toNat - 48) else none

def digitsToNat (acc : Nat) : List Char → Option Nat
  | [] => some acc
  | c :: cs =>
    match digitVal c with
    | some d => digitsToNat (acc * 10 + d) cs
    | none => none

/-- The unsigned-digits part of `strconv.ParseInt`: at least one digit,
digits only. -/
def parseUnsigned : List Char → Option Nat
  | [] => none
  | cs => digitsToNat 0 cs

/-- Magnitude step of `strconv.Atoi`: range errors clamp to the int64
bound and report failure, as `ParseInt` does. -/
def goAtoiMag (neg : Bool) (ds : List Char) : Int × Bool :=
  match parseUnsigned ds with
  | none => (0, false)
  | some n =>
    if neg then
      if n ≤ 2 ^ 63 then (-(n : Int), true) else (-(2 ^ 63 : Int), false)
    else
      if n ≤ 2 ^ 63 - 1 then ((n : Int), true) else ((2 ^ 63 - 1 : Int), false)

/-- `strconv.Atoi(s)`: the returned value and whether the error was nil.
The source discards the error and uses the value. -/
def goAtoi : List Char → Int × Bool
  | '+' :: rest => goAtoiMag false rest
  | '-' :: rest => goAtoiMag true rest
  | cs => goAtoiMag false cs

/-- `strconv.Itoa` for the non-negative probe value: the written probe
content. -/
def itoa (n : Nat) : List Char := (Nat.repr n).data

def checkFolder (testVal : Nat) (env : FolderEnv) : Option GoErr :=
  match env.writeErr with
  | some e => some (.wrap "write err" e)
  | none =>
  match env.readResult with
  | .error e => some (.wrap "read err" e)
  | .ok readChars =>
    let readVal := (goAtoi readChars).1
    if (testVal : Int) ≠ readVal then
      some (.msg ("read check failed: different value (wanted " ++ toString testVal
        ++ ", got " ++ String.mk readChars ++ ")"))
    else
      match env.removeErr with
      | some e => some (.wrap "cleanup err" e)
      | none => none

/-! ## Structural lemmas about the line writers -/

theorem prependFirst_nil (s : List (List Nat) × List Nat) : prependFirst [] s = s := by
  obtain ⟨cs, r⟩ := s
  cases cs <;> simp [prependFirst]

theorem prependFirst_comp (c d : List Nat) (s : List (List Nat) × List Nat) :
    prependFirst c (prependFirst d s) = prependFirst (c ++ d) s := by
  obtain ⟨cs, r⟩ := s
  cases cs <;> simp [prependFirst, List.append_assoc]

theorem keepNonempty_append (a b : List (List Nat)) :
    keepNonempty (a ++ b) = keepNonempty a ++ keepNonempty b := by
  induction a with
  | nil => simp [keepNonempty]
  | cons l ls ih =>
    simp only [List.cons_append, keepNonempty]
    split <;> simp [ih]

theorem keepNonempty_optRem (r : List Nat) : keepNonempty (optRem r) = optRem r := by
  unfold optRem
  split
  · next h => simp [keepNonempty, Nat.pos_iff_ne_zero.mp h]
  · simp [keepNonempty]

theorem prependFirst_cons (c l : List Nat) (ls : List (List Nat)) (r : List Nat) :
    prependFirst c (l :: ls, r) = ((c ++ l) :: ls, r) := rfl

theorem splitNL_nl (rest : List Nat) :
    splitNL (10 :: rest) = ([] :: (splitNL rest).1, (splitNL rest).2) := by
  simp [splitNL]

theorem splitNL_ch (b : Nat) (rest : List Nat) (hb : b ≠ 10) :
    splitNL (b :: rest) = prependFirst [b] (splitNL rest) := by
  simp [splitNL, hb]

theorem linesWriter_writeByte_nl_nil (ls : List (List Nat)) :
    linesWriter.writeByte ⟨ls, []⟩ 10 = ⟨ls, []⟩ := rfl

theorem linesWriter_writeByte_nl (ls : List (List Nat)) (c : List Nat) (hc : c ≠ []) :
    linesWriter.writeByte ⟨ls, c⟩ 10 = ⟨ls ++ [c], []⟩ := by
  unfold linesWriter.writeByte
  rw [if_pos rfl, if_neg (by simpa using hc)]

theorem linesWriter_writeByte_ch (ls : List (List Nat)) (c : List Nat) (b : Nat)
    (hb : b ≠ 10) : linesWriter.writeByte ⟨ls, c⟩ b = ⟨ls, c ++ [b]⟩ := by
  unfold linesWriter.writeByte
  rw [if_neg hb]

theorem lineBuffer_writeByte_nl (pre c : List Nat) :
    lineBuffer.writeByte ⟨pre, c⟩ 10 = (⟨pre, []⟩, [pre ++ c ++ [10]]) := by
  unfold lineBuffer.writeByte
  rw [if_pos rfl]
  cases pre <;> simp

theorem lineBuffer_writeByte_ch (pre c : List Nat) (b : Nat) (hb : b ≠ 10) :
    lineBuffer.writeByte ⟨pre, c⟩ b = (⟨pre, c ++ [b]⟩, []) := by
  unfold lineBuffer.writeByte
  rw [if_neg hb]

/-- The per-byte loop of `linesWriter.Write`, run on a whole transcript
from an arbitrary buffered state, records exactly the non-empty completed
lines and leaves the remainder buffered. -/
theorem linesWriter_writeBytes_eq (t : List Nat) :
    ∀ (ls : List (List Nat)) (c : List Nat),
    (linesWriter.writeBytes ⟨ls, c⟩ t : linesWriter) =
      ⟨ls ++ keepNonempty (prependFirst c (splitNL t)).1,
       (prependFirst c (splitNL t)).2⟩ := by
  induction t with
  | nil =>
    intro ls c
    simp [linesWriter.writeBytes, splitNL, prependFirst, keepNonempty]
  | cons b rest ih =>
    intro ls c
    by_cases hb : b = 10
    · subst hb
      show (linesWriter.writeByte ⟨ls, c⟩ 10).writeBytes rest = _
      rw [splitNL_nl, prependFirst_cons]
      by_cases hc : c = []
      · subst hc
        rw [linesWriter_writeByte_nl_nil, ih, prependFirst_nil]
        simp [keepNonempty]
      · rw [linesWriter_writeByte_nl ls c hc, ih, prependFirst_nil]
        simp [keepNonempty, hc]
    · show (linesWriter.writeByte ⟨ls, c⟩ b).writeBytes rest = _
      rw [linesWriter_writeByte_ch ls c b hb, ih, splitNL_ch b rest hb,
        prependFirst_comp]

theorem linesWriter_writeBytes_append (p q : List Nat) :
    ∀ lw : linesWriter, linesWriter.writeBytes lw (p ++ q) =
      (linesWriter.writeBytes lw p).writeBytes q := by
  induction p with
  | nil => intro lw; rfl
  | cons b bs ih =>
    intro lw
    show (lw.writeByte b).writeBytes (bs ++ q) = _
    rw [ih]
    rfl

/-- A sequence of `Write` calls behaves like one `Write` of the
concatenation: the capture is chunking-invariant. -/
theorem linesWriter_writeChunks_flatten (ps : List (List Nat)) :
    ∀ lw : linesWriter, linesWriter.writeChunks lw ps =
      linesWriter.writeBytes lw ps.flatten := by
  induction ps with
  | nil => intro lw; rfl
  | cons p ps ih =>
    intro lw
    show (lw.writeBytes p).writeChunks ps = _
    rw [ih, List.flatten_cons, linesWriter_writeBytes_append]

/-- The full `linesWriter` run on any chunking of a transcript: the
non-empty completed lines, then the non-empty remainder. -/
theorem linesWriterRun_eq (chunks : List (List Nat)) :
    linesWriterRun chunks =
      keepNonempty (splitNL chunks.flatten).1 ++ optRem (splitNL chunks.flatten).2 := by
  unfold linesWriterRun
  rw [linesWriter_writeChunks_flatten]
  rw [show ({ lines := [], curr := [] } : linesWriter) = ⟨[], []⟩ from rfl]
  rw [linesWriter_writeBytes_eq, prependFirst_nil]
  unfold linesWriter.Lines optRem
  split <;> simp

/-- The per-byte loop of `lineBuffer.Write` from an arbitrary buffered
state: every completed line is written to the sink with the prefix
prepended and the marker retained, and the remainder stays buffered. -/
theorem lineBuffer_writeBytes_eq (t : List Nat) : ∀ pre c : List Nat,
    lineBuffer.writeBytes ⟨pre, c⟩ t =
      (⟨pre, (prependFirst c (splitNL t)).2⟩,
       ((prependFirst c (splitNL t)).1).map (fun l => pre ++ l ++ [10])) := by
  induction t with
  | nil =>
    intro pre c
    simp [lineBuffer.writeBytes, splitNL, prependFirst]
  | cons b rest ih =>
    intro pre c
    by_cases hb : b = 10
    · subst hb
      show (let r1 := lineBuffer.writeByte ⟨pre, c⟩ 10
            let r2 := r1.1.writeBytes rest
            (r2.1, r1.2 ++ r2.2)) = _
      rw [splitNL_nl, prependFirst_cons]
      simp only [lineBuffer_writeByte_nl, ih, List.map_cons]
      rw [prependFirst_nil]
      simp
    · show (let r1 := lineBuffer.writeByte ⟨pre, c⟩ b
            let r2 := r1.1.writeBytes rest
            (r2.1, r1.2 ++ r2.2)) = _
      rw [splitNL_ch b rest hb]
      simp only [lineBuffer_writeByte_ch pre c b hb, ih]
      rw [prependFirst_comp]
      simp

theorem lineBuffer_writeBytes_append (p q : List Nat) :
    ∀ lb : lineBuffer, lineBuffer.writeBytes lb (p ++ q) =
      (((lineBuffer.writeBytes lb p).1.writeBytes q).1,
       (lineBuffer.writeBytes lb p).2 ++ ((lineBuffer.writeBytes lb p).1.writeBytes q).2) := by
  induction p with
  | nil => intro lb; simp [lineBuffer.writeBytes]
  | cons b bs ih =>
    intro lb
    simp only [List.cons_append, lineBuffer.writeBytes, List.append_eq]
    rw [ih]
    simp [List.append_assoc]

/-- A sequence of live-sink `Write` calls behaves like one `Write` of the
concatenation: the live emissions are chunking-invariant. -/
theorem lineBuffer_writeChunks_flatten (ps : List (List Nat)) :
    ∀ lb : lineBuffer, lineBuffer.writeChunks lb ps =
      lineBuffer.writeBytes lb ps.flatten := by
  induction ps with
  | nil => intro lb; simp [lineBuffer.writeChunks, lineBuffer.writeBytes]
  | cons p ps ih =>
    intro lb
    show (let r1 := lb.writeBytes p
          let r2 := r1.1.writeChunks ps
          (r2.1, r1.2 ++ r2.2)) = _
    rw [List.flatten_cons, lineBuffer_writeBytes_append]
    simp only [ih]

/-- The `Write`-phase emissions of a full feed, and the state it leaves. -/
theorem lineBufferFeed_eq (pre : List Nat) (chunks : List (List Nat)) :
    lineBufferFeed pre chunks =
      (⟨pre, (splitNL chunks.flatten).2⟩,
       ((splitNL chunks.flatten).1).map (fun l => pre ++ l ++ [10])) := by
  unfold lineBufferFeed
  rw [show ({ Prefix := pre, curr := [] } : lineBuffer) = ⟨pre, []⟩ from rfl]
  rw [lineBuffer_writeChunks_flatten, lineBuffer_writeBytes_eq, prependFirst_nil]

/-- The full live-sink run on any chunking of a transcript: each completed
line prefixed and terminated, then the bare non-empty remainder from the
flush. -/
theorem lineBufferRun_eq (pre : List Nat) (chunks : List (List Nat)) :
    lineBufferRun pre chunks =
      ((splitNL chunks.flatten).1).map (fun l => pre ++ l ++ [10]) ++
        optRem (splitNL chunks.flatten).2 := by
  unfold lineBufferRun
  rw [lineBufferFeed_eq]
  unfold lineBuffer.flush optRem
  split <;> simp_all

theorem splitNL_rem_no_nl (t : List Nat) : 10 ∉ (splitNL t).2 := by
  induction t with
  | nil => simp [splitNL]
  | cons b rest ih =>
    by_cases hb : b = 10
    · subst hb
      rw [splitNL_nl]
      exact ih
    · rw [splitNL_ch b rest hb]
      rcases h : splitNL rest with ⟨cs, r⟩
      rw [h] at ih
      cases cs with
      | nil =>
        simp only [prependFirst, List.singleton_append]
        simp only [List.mem_cons, not_or]
        exact ⟨fun he => hb he.symm, ih⟩
      | cons l ls => simpa [prependFirst] using ih

theorem stripLive_term (pre l : List Nat) : stripLive pre (pre ++ l ++ [10]) = l := by
  unfold stripLive
  rw [if_pos (List.getLast?_concat _), List.dropLast_concat, List.drop_left]

theorem stripLive_untermed (pre r : List Nat) (h : 10 ∉ r) : stripLive pre r = r := by
  unfold stripLive
  rw [if_neg]
  intro hc
  exact h (List.mem_of_mem_getLast? (by rw [hc]; rfl))

/-! ## Claim theorems about the writers and the command runner -/

/-- C3, as stated, is false on the code: `linesWriter` drops the empty
completed line of the transcript `"a\n\na"`, so its output differs from
the transcript split on the marker with the marker stripped. -/
theorem c3_counterexample :
    linesWriterRun [[97, 10, 10, 97]] ≠ claimEmit [97, 10, 10, 97] := by decide

/-- C3 (amended): feeding any chunking of a transcript is
chunking-invariant, and emits exactly: for `linesWriter` the non-empty
completed lines (marker stripped) plus the non-empty final fragment; for
`lineBuffer` every completed line with the prefix prepended and the marker
retained, plus the bare non-empty final fragment. -/
theorem c3_line_reassembly (pre : List Nat) (chunks chunks2 : List (List Nat))
    (h : chunks2.flatten = chunks.flatten) :
    linesWriterRun chunks =
      keepNonempty (splitNL chunks.flatten).1 ++ optRem (splitNL chunks.flatten).2
  ∧ lineBufferRun pre chunks =
      ((splitNL chunks.flatten).1).map (fun l => pre ++ l ++ [10]) ++
        optRem (splitNL chunks.flatten).2
  ∧ linesWriterRun chunks2 = linesWriterRun chunks
  ∧ lineBufferRun pre chunks2 = lineBufferRun pre chunks := by
  refine ⟨linesWriterRun_eq chunks, lineBufferRun_eq pre chunks, ?_, ?_⟩
  · rw [linesWriterRun_eq, linesWriterRun_eq, h]
  · rw [lineBufferRun_eq, lineBufferRun_eq, h]

theorem c3_witness :
    linesWriterRun [[97, 10], [98]] =
      keepNonempty (splitNL (([[97, 10], [98]] : List (List Nat)).flatten)).1 ++
        optRem (splitNL (([[97, 10], [98]] : List (List Nat)).flatten)).2
  ∧ lineBufferRun [91] [[97, 10], [98]] =
      ((splitNL (([[97, 10], [98]] : List (List Nat)).flatten)).1).map
          (fun l => [91] ++ l ++ [10]) ++
        optRem (splitNL (([[97, 10], [98]] : List (List Nat)).flatten)).2
  ∧ linesWriterRun [[97], [10, 98]] = linesWriterRun [[97, 10], [98]]
  ∧ lineBufferRun [91] [[97], [10, 98]] = lineBufferRun [91] [[97, 10], [98]] :=
  c3_line_reassembly [91] [[97, 10], [98]] [[97], [10, 98]] rfl

/-- C4: the recorder's captured line list equals the non-empty line
contents written to the live sink, in order, while the live sink keeps
every completed line including the zero-length ones the capture omits. -/
theorem c4_dual_sink_recorder (pre : List Nat) (chunks : List (List Nat)) :
    (lineBufferRun pre chunks).map (stripLive pre) =
      (splitNL chunks.flatten).1 ++ optRem (splitNL chunks.flatten).2
  ∧ linesWriterRun chunks =
      keepNonempty ((lineBufferRun pre chunks).map (stripLive pre)) := by
  have hmap : (lineBufferRun pre chunks).map (stripLive pre) =
      (splitNL chunks.flatten).1 ++ optRem (splitNL chunks.flatten).2 := by
    rw [lineBufferRun_eq, List.map_append, List.map_map]
    congr 1
    · calc ((splitNL chunks.flatten).1).map (stripLive pre ∘ fun l => pre ++ l ++ [10])
          = ((splitNL chunks.flatten).1).map id :=
            List.map_congr_left (fun l _ => stripLive_term pre l)
        _ = (splitNL chunks.flatten).1 := List.map_id _
    · unfold optRem
      split
      · next hr =>
        rw [List.map_singleton,
          stripLive_untermed pre _ (splitNL_rem_no_nl chunks.flatten)]
      · simp
  refine ⟨hmap, ?_⟩
  rw [hmap, linesWriterRun_eq, keepNonempty_append, keepNonempty_optRem]

/-- C7, as stated, is false on the code: `Flush` pushes the final
unterminated partial line to the sink without the configured prefix. -/
theorem c7_counterexample :
    lineBufferRun [91] [[97]] = [[97]] ∧ ¬[91] <+: [97] := by decide

/-- C7 (amended): every line emitted by `Write` begins with the prefix;
the final unterminated partial line pushed out by `Flush` is emitted
verbatim, without the prefix. -/
theorem c7_label_lines (pre : List Nat) (chunks : List (List Nat)) (hpre : pre ≠ []) :
    (∀ l ∈ (lineBufferFeed pre chunks).2, pre <+: l)
  ∧ lineBufferRun pre chunks =
      (lineBufferFeed pre chunks).2 ++ optRem (splitNL chunks.flatten).2 := by
  have hfeed := lineBufferFeed_eq pre chunks
  constructor
  · intro l hl
    rw [hfeed] at hl
    simp only [List.mem_map] at hl
    obtain ⟨x, _, rfl⟩ := hl
    exact ⟨x ++ [10], by simp [List.append_assoc]⟩
  · rw [lineBufferRun_eq, hfeed]

theorem c7_witness :
    [91] <+: [91, 97, 10]
  ∧ lineBufferRun [91] [[97, 10, 98]] =
      (lineBufferFeed [91] [[97, 10, 98]]).2 ++
        optRem (splitNL (([[97, 10, 98]] : List (List Nat)).flatten)).2 := by
  have h := c7_label_lines [91] [[97, 10, 98]] (by decide)
  exact ⟨h.1 [91, 97, 10] (by decide), h.2⟩

/-- C8: when the subprocess fails to launch or exits nonzero, the command
runner returns the wrapped non-nil error together with the captured lines,
terminated by the synthetic marker. -/
theorem c8_exec_failure (logDesc name : String) (args : List String) (env : CmdEnv)
    (e : GoErr) (h : env.runErr = some e) :
    (execCommand logDesc name args env).2 =
      some (.wrap ("command " ++ name ++ " failed") e)
  ∧ (execCommand logDesc name args env).1 =
      linesWriterRun env.output ++ [endOfLogs] := by
  unfold execCommand
  rw [h]
  exact ⟨rfl, rfl⟩

theorem c8_witness :
    (execCommand "cshatag:input" "cshatag" ["-q"]
        ⟨[[104, 10]], some (.msg "exit status 1")⟩).2 =
      some (.wrap ("command " ++ "cshatag" ++ " failed") (.msg "exit status 1"))
  ∧ (execCommand "cshatag:input" "cshatag" ["-q"]
        ⟨[[104, 10]], some (.msg "exit status 1")⟩).1 =
      linesWriterRun [[104, 10]] ++ [endOfLogs] :=
  c8_exec_failure "cshatag:input" "cshatag" ["-q"]
    ⟨[[104, 10]], some (.msg "exit status 1")⟩ (.msg "exit status 1") rfl

/-- C10: every `execCommand` invocation — successful or not — returns a
non-empty captured line sequence whose last element is the synthetic
marker line. -/
theorem c10_exec_marker (logDesc name : String) (args : List String) (env : CmdEnv) :
    (execCommand logDesc name args env).1 ≠ []
  ∧ (execCommand logDesc name args env).1.getLast? = some endOfLogs := by
  obtain ⟨output, runErr⟩ := env
  cases runErr <;>
    exact ⟨by simp [execCommand], by simp [execCommand, List.getLast?_concat]⟩

/-! ## Claim theorems about the orchestrator (`run`) and `checkFolder` -/

/-- C1 is contradicted by the code: in a run where the log file, argument
parsing, config load, both folder checks, both cshatag invocations, the
(never-reached) rsync and the mail send would all succeed, `run` still
returns a non-nil error — the unconditional `errors.Join` of the two
`fmt.Errorf("...: %w", nil)` wrappers is non-nil — and the sync step is
never invoked, so `main` exits 1. -/
theorem c1_success_path_unreachable :
    (run ⟨"t", none, ["in", "out"], none, none, none, ([], none), ([], none),
        ([], none), none⟩).workflowErr ≠ none
  ∧ (run ⟨"t", none, ["in", "out"], none, none, none, ([], none), ([], none),
        ([], none), none⟩).retErr ≠ none
  ∧ (run ⟨"t", none, ["in", "out"], none, none, none, ([], none), ([], none),
        ([], none), none⟩).syncInvoked = false := by
  refine ⟨?_, ?_, rfl⟩ <;> decide

/-- C2: when the pre-verification stages succeed and either cshatag
verification fails, the sync step is never invoked, the report holds the
folder-check section, both verification sections and the failure outcome
section — no sync section — and the workflow error is the aggregate
joining both (wrapped) verification results. -/
theorem c2_verification_failure_blocks_sync (now inF outF : String)
    (cin cout rs : List (List Nat) × Option GoErr) (me : Option GoErr)
    (h : cin.2 ≠ none ∨ cout.2 ≠ none) :
    (run ⟨now, none, [inF, outF], none, none, none, cin, cout, rs, me⟩).syncInvoked = false
  ∧ ((run ⟨now, none, [inF, outF], none, none, none, cin, cout, rs, me⟩).report.Sections.map
      Section.Title) =
        ["Folders checked", "cshatag on input folder", "cshatag on output folder", "Error"]
  ∧ (run ⟨now, none, [inF, outF], none, none, none, cin, cout, rs, me⟩).workflowErr =
      some (.join2 (.join1 (errorfW "cshatag on input folder failed" cin.2))
        (errorfW "cshatag on output folder failed" cout.2)) := by
  refine ⟨rfl, ?_, rfl⟩
  simp [run, finalizeRun, addExecSection, goJoin2]

theorem c2_witness :
    (run ⟨"t", none, ["i", "o"], none, none, none, ([], some (.msg "boom")),
        ([], none), ([], none), none⟩).syncInvoked = false
  ∧ ((run ⟨"t", none, ["i", "o"], none, none, none, ([], some (.msg "boom")),
        ([], none), ([], none), none⟩).report.Sections.map Section.Title) =
        ["Folders checked", "cshatag on input folder", "cshatag on output folder", "Error"]
  ∧ (run ⟨"t", none, ["i", "o"], none, none, none, ([], some (.msg "boom")),
        ([], none), ([], none), none⟩).workflowErr =
      some (.join2 (.join1 (errorfW "cshatag on input folder failed" (some (.msg "boom"))))
        (errorfW "cshatag on output folder failed" none)) :=
  c2_verification_failure_blocks_sync "t" "i" "o" ([], some (.msg "boom"))
    ([], none) ([], none) none (Or.inl (by decide))

/-- C5: on every exit path after the log file exists, the deferred
finalization runs: it appends the outcome section (success banner, or the
stringified accumulated error), sets the title from the workflow error,
attempts the mail send, and returns the `errors.Join` of the workflow
error and the mail error. -/
theorem c5_finalize_every_path (env : RunEnv) (h : env.logCreateErr = none) :
    (run env).mailSent = true
  ∧ (run env).retErr = goJoin2 (run env).workflowErr env.mailErr
  ∧ (run env).report.Title =
      (match (run env).workflowErr with
        | none => "[SUCCESS] Backup Helper report"
        | some _ => "[ERROR] Backup Helper report")
  ∧ (run env).report.Sections.getLast? =
      some (match (run env).workflowErr with
        | none => ⟨"Success", "No error reported - looking good!", []⟩
        | some e => ⟨"Error", "Error contents: " ++ errString e, []⟩) := by
  rcases env with ⟨now, lce, args, ce, ci, co, cin, cout, rs, me⟩
  dsimp only at h
  subst h
  rcases args with _ | ⟨a, args⟩
  · exact ⟨rfl, rfl, rfl, List.getLast?_concat _⟩
  rcases args with _ | ⟨b, args⟩
  · exact ⟨rfl, rfl, rfl, List.getLast?_concat _⟩
  rcases args with _ | ⟨c0, args⟩
  · -- exactly two arguments: walk the remaining stages
    cases ce with
    | some e => exact ⟨rfl, rfl, rfl, List.getLast?_concat _⟩
    | none =>
      cases ci with
      | some e => exact ⟨rfl, rfl, rfl, List.getLast?_concat _⟩
      | none =>
        cases co with
        | some e => exact ⟨rfl, rfl, rfl, List.getLast?_concat _⟩
        | none => exact ⟨rfl, rfl, rfl, List.getLast?_concat _⟩
  · exact ⟨rfl, rfl, rfl, List.getLast?_concat _⟩

theorem c5_witness :
    (run ⟨"t", none, [], none, none, none, ([], none), ([], none), ([], none),
        some (.msg "smtp down")⟩).mailSent = true
  ∧ (run ⟨"t", none, [], none, none, none, ([], none), ([], none), ([], none),
        some (.msg "smtp down")⟩).retErr =
      goJoin2 (run ⟨"t", none, [], none, none, none, ([], none), ([], none),
        ([], none), some (.msg "smtp down")⟩).workflowErr (some (.msg "smtp down")) :=
  ⟨(c5_finalize_every_path ⟨"t", none, [], none, none, none, ([], none), ([], none),
      ([], none), some (.msg "smtp down")⟩ rfl).1,
   (c5_finalize_every_path ⟨"t", none, [], none, none, none, ([], none), ([], none),
      ([], none), some (.msg "smtp down")⟩ rfl).2.1⟩

/-- C6: in every run the report's sections appear in the fixed order
folder-check, input verification, output verification, sync (when
reached), outcome — and once the deferred finalization runs, the last
section is the outcome section. -/
theorem c6_section_order (env : RunEnv) :
    (((run env).report.Sections.map Section.Title).Sublist
        ["Folders checked", "cshatag on input folder", "cshatag on output folder",
          "rsync from input to output folder", "Error"]
      ∨ ((run env).report.Sections.map Section.Title).Sublist
        ["Folders checked", "cshatag on input folder", "cshatag on output folder",
          "rsync from input to output folder", "Success"])
  ∧ (env.logCreateErr = none →
      ((run env).report.Sections.getLast?).map Section.Title = some "Error"
      ∨ ((run env).report.Sections.getLast?).map Section.Title = some "Success") := by
  rcases env with ⟨now, lce, args, ce, ci, co, cin, cout, rs, me⟩
  cases lce with
  | some e =>
    refine ⟨Or.inl ?_, fun hc => nomatch hc⟩
    show List.Sublist (List.map _ []) _
    simp
  | none =>
    rcases args with _ | ⟨a, args⟩
    · exact ⟨Or.inl (of_decide_eq_true rfl), fun hc => Or.inl rfl⟩
    rcases args with _ | ⟨b, args⟩
    · exact ⟨Or.inl (of_decide_eq_true rfl), fun hc => Or.inl rfl⟩
    rcases args with _ | ⟨c0, args⟩
    · cases ce with
      | some e => exact ⟨Or.inl (of_decide_eq_true rfl), fun hc => Or.inl rfl⟩
      | none =>
        cases ci with
        | some e => exact ⟨Or.inl (of_decide_eq_true rfl), fun hc => Or.inl rfl⟩
        | none =>
          cases co with
          | some e => exact ⟨Or.inl (of_decide_eq_true rfl), fun hc => Or.inl rfl⟩
          | none => exact ⟨Or.inl (of_decide_eq_true rfl), fun hc => Or.inl rfl⟩
    · exact ⟨Or.inl (of_decide_eq_true rfl), fun hc => Or.inl rfl⟩

theorem c6_witness :
    (((run ⟨"t", none, ["i", "o"], none, none, none, ([], some (.msg "x")),
          ([], none), ([], none), none⟩).report.Sections.map Section.Title).Sublist
        ["Folders checked", "cshatag on input folder", "cshatag on output folder",
          "rsync from input to output folder", "Error"]
      ∨ ((run ⟨"t", none, ["i", "o"], none, none, none, ([], some (.msg "x")),
          ([], none), ([], none), none⟩).report.Sections.map Section.Title).Sublist
        ["Folders checked", "cshatag on input folder", "cshatag on output folder",
          "rsync from input to output folder", "Success"])
  ∧ (((run ⟨"t", none, ["i", "o"], none, none, none, ([], some (.msg "x")),
          ([], none), ([], none), none⟩).report.Sections.getLast?).map Section.Title =
        some "Error"
      ∨ ((run ⟨"t", none, ["i", "o"], none, none, none, ([], some (.msg "x")),
          ([], none), ([], none), none⟩).report.Sections.getLast?).map Section.Title =
        some "Success") :=
  ⟨(c6_section_order ⟨"t", none, ["i", "o"], none, none, none, ([], some (.msg "x")),
      ([], none), ([], none), none⟩).1,
   (c6_section_order ⟨"t", none, ["i", "o"], none, none, none, ([], some (.msg "x")),
      ([], none), ([], none), none⟩).2 rfl⟩

/-- C9, as stated, is false on the code: `checkFolder` compares the probe
value with the read-back content only after parsing it with
`strconv.Atoi`, so a read-back of `"05"` passes the check for the written
content `"5"` although the two are not byte-for-byte equal. -/
theorem c9_counterexample :
    checkFolder 5 ⟨none, .ok ['0', '5'], none⟩ = none ∧ ['0', '5'] ≠ itoa 5 := by
  exact ⟨rfl, by decide⟩

/-- C9 (amended): the folder check succeeds exactly when the write and the
delete succeed and the read-back content parses — via `strconv.Atoi`, with
the parse error discarded — to the integer value that was written (not
necessarily byte-for-byte equal); each failing phase yields the error
identifying that phase. -/
theorem c9_check_folder (v : Nat) (env : FolderEnv) :
    (checkFolder v env = none ↔
      env.writeErr = none ∧ env.removeErr = none ∧
        ∃ cs, env.readResult = .ok cs ∧ (v : Int) = (goAtoi cs).1)
  ∧ (∀ e, env.writeErr = some e →
      checkFolder v env = some (.wrap "write err" e))
  ∧ (∀ e, env.writeErr = none → env.readResult = .error e →
      checkFolder v env = some (.wrap "read err" e))
  ∧ (∀ cs, env.writeErr = none → env.readResult = .ok cs →
      (v : Int) ≠ (goAtoi cs).1 →
      checkFolder v env =
        some (.msg ("read check failed: different value (wanted " ++ toString v ++
          ", got " ++ String.mk cs ++ ")")))
  ∧ (∀ cs e, env.writeErr = none → env.readResult = .ok cs →
      (v : Int) = (goAtoi cs).1 → env.removeErr = some e →
      checkFolder v env = some (.wrap "cleanup err" e)) := by
  obtain ⟨we, rr, re⟩ := env
  refine ⟨?_, ?_, ?_, ?_, ?_⟩
  · cases we with
    | some e => simp [checkFolder]
    | none =>
      cases rr with
      | error e => simp [checkFolder]
      | ok cs =>
        by_cases hv : (v : Int) = (goAtoi cs).1
        · cases re with
          | some e => simp [checkFolder, hv]
          | none => simp [checkFolder, hv]
        · simp [checkFolder, hv]
  · intro e he
    dsimp only at he
    subst he
    rfl
  · intro e hw hr
    dsimp only at hw hr
    subst hw
    subst hr
    rfl
  · intro cs hw hr hv
    dsimp only at hw hr
    subst hw
    subst hr
    simp [checkFolder, hv]
  · intro cs e hw hr hv hre
    dsimp only at hw hr hre
    subst hw
    subst hr
    subst hre
    simp [checkFolder, hv]

theorem c9_witness :
    checkFolder 7 ⟨some (.msg "EACCES"), .ok [], none⟩ =
      some (.wrap "write err" (.msg "EACCES")) :=
  (c9_check_folder 7 ⟨some (.msg "EACCES"), .ok [], none⟩).2.1 (.msg "EACCES") rfl

end BackupHelper
